import Mathlib

/-!
Verification of the cerebras-openrouter-hackathon RAG system.

This file gives a shallow embedding of the repository's own decision logic:
the text normalizer `_clean`, the citation data model, the retrieval and
citation-generation pipeline of `rag_agent.py`, and the vector-database
population pipeline of `populate_vectordb.py`.  External hosted services
(vector store, embedding model, reranker, language model) are modelled as
oracle parameters; everything the repository itself computes is translated
directly from the source.
-/

namespace CerebrasRag

/-! ## Character classes (Python `re` semantics, ASCII fragment)

Python `\s` on `str` matches `[ \t\n\r\f\v]` (plus Unicode spaces, which the
documentation corpus does not rely on); `\w` is `[A-Za-z0-9_]`;
`[A-Za-z]` is the plain ASCII letter class. -/

def isWs (c : Char) : Bool :=
  c = ' ' || c = '\t' || c = '\n' || c = '\r' || c = Char.ofNat 11 || c = Char.ofNat 12

def isWordChar (c : Char) : Bool :=
  c.isAlpha || c.isDigit || c = '_'

def isPunctCl (c : Char) : Bool :=
  c = ':' || c = ';' || c = ',' || c = '.' || c = '$'

/-! ## The text normalizer `_clean` (rag_agent.py lines 149-171)

Each regex substitution is embedded as a left-to-right scanner that mirrors
leftmost, non-overlapping, greedy matching of the corresponding pattern.

Rule 1: `re.sub(r'(?:\b[A-Za-z]\s){2,}\b[A-Za-z]', m -> m.group(0).replace(' ', ''), text)`.
The scanner keeps the current candidate run of (letter, whitespace) pairs in
`pend`; `prevW` records whether the previous character was a word character
(for the `\b` test at the start of a run).  A match is a maximal sequence of
pairs followed by one more letter; if the run ends without a final letter,
the regex backtracks one pair when at least three pairs were collected.
The replacement deletes only the space character U+0020 from the match. -/

def joinRun (pend : List Char) : List Char :=
  pend.filter (fun c => c ≠ ' ')

def flushRun (pend : List Char) : List Char :=
  if 6 ≤ pend.length then
    ((pend.take (pend.length - 1)).filter (fun c => c ≠ ' ')) ++ pend.drop (pend.length - 1)
  else pend

def r1go (pend : List Char) (prevW : Bool) : List Char → List Char
  | [] => flushRun pend
  | [c] =>
    if c.isAlpha ∧ 4 ≤ pend.length then joinRun (pend ++ [c])
    else flushRun pend ++ [c]
  | a :: b :: rest =>
    if a.isAlpha then
      if isWs b then
        if pend.isEmpty then
          if prevW then a :: r1go [] true (b :: rest)
          else r1go [a, b] false rest
        else r1go (pend ++ [a, b]) false rest
      else
        if 4 ≤ pend.length then joinRun (pend ++ [a]) ++ r1go [] true (b :: rest)
        else flushRun pend ++ (a :: r1go [] true (b :: rest))
    else
      flushRun pend ++ (a :: r1go [] (isWordChar a) (b :: rest))

def rule1 (l : List Char) : List Char := r1go [] false l

/-- Rule 2: `re.sub(r'\s*_+\s*', ' ', text)`.  State machine: `norm` is
ordinary scanning with a buffer of pending whitespace whose fate depends on
whether an underscore follows; `inU` is inside the `_+` part of a match;
`afterU` is consuming the trailing `\s*` of a match. -/
inductive R2S where
  | norm
  | inU
  | afterU

def r2go : R2S → List Char → List Char → List Char
  | R2S.norm, pend, [] => pend
  | R2S.norm, pend, c :: rest =>
    if c = '_' then ' ' :: r2go R2S.inU [] rest
    else if isWs c then r2go R2S.norm (pend ++ [c]) rest
    else pend ++ c :: r2go R2S.norm [] rest
  | R2S.inU, _, [] => []
  | R2S.inU, _, c :: rest =>
    if c = '_' then r2go R2S.inU [] rest
    else if isWs c then r2go R2S.afterU [] rest
    else c :: r2go R2S.norm [] rest
  | R2S.afterU, _, [] => []
  | R2S.afterU, _, c :: rest =>
    if c = '_' then ' ' :: r2go R2S.inU [] rest
    else if isWs c then r2go R2S.afterU [] rest
    else c :: r2go R2S.norm [] rest

def rule2 (l : List Char) : List Char := r2go R2S.norm [] l

/-- Rule 3: `re.sub(r'\s+', ' ', text)`: each maximal whitespace run becomes
one space.  The flag records whether the previous character was whitespace. -/
def r3go : Bool → List Char → List Char
  | _, [] => []
  | inWs, c :: rest =>
    if isWs c then
      if inWs then r3go true rest else ' ' :: r3go true rest
    else c :: r3go false rest

def rule3 (l : List Char) : List Char := r3go false l

/-- Rule 4: `re.sub(r'\(\s+', '(', text)`.  `sawP` means the previous emitted
character was `(`; `skip` means we are deleting the `\s+` after a `(`. -/
inductive R4S where
  | norm
  | sawP
  | skip

def r4go : R4S → List Char → List Char
  | _, [] => []
  | R4S.norm, c :: rest =>
    if c = '(' then '(' :: r4go R4S.sawP rest else c :: r4go R4S.norm rest
  | R4S.sawP, c :: rest =>
    if isWs c then r4go R4S.skip rest
    else if c = '(' then '(' :: r4go R4S.sawP rest
    else c :: r4go R4S.norm rest
  | R4S.skip, c :: rest =>
    if isWs c then r4go R4S.skip rest
    else if c = '(' then '(' :: r4go R4S.sawP rest
    else c :: r4go R4S.norm rest

def rule4 (l : List Char) : List Char := r4go R4S.norm l

/-- Rule 5: `re.sub(r'\s+\)', ')', text)`.  A pending whitespace run is
dropped when it is immediately followed by `)`, otherwise flushed. -/
def r5go (pend : List Char) : List Char → List Char
  | [] => pend
  | c :: rest =>
    if isWs c then r5go (pend ++ [c]) rest
    else if c = ')' ∧ ¬ pend.isEmpty then ')' :: r5go [] rest
    else pend ++ c :: r5go [] rest

def rule5 (l : List Char) : List Char := r5go [] l

/-- Rule 6: `re.sub(r'\s*([:;,.\$])\s*', r'\1 ', text)`: each punctuation
character, together with surrounding whitespace, becomes the character
followed by exactly one space.  `skipT` consumes the trailing `\s*` of a
match (inside which a further punctuation character starts a new match). -/
inductive R6S where
  | norm
  | skipT

def r6go : R6S → List Char → List Char → List Char
  | R6S.norm, pend, [] => pend
  | R6S.norm, pend, c :: rest =>
    if isPunctCl c then c :: ' ' :: r6go R6S.skipT [] rest
    else if isWs c then r6go R6S.norm (pend ++ [c]) rest
    else pend ++ c :: r6go R6S.norm [] rest
  | R6S.skipT, _, [] => []
  | R6S.skipT, _, c :: rest =>
    if isWs c then r6go R6S.skipT [] rest
    else if isPunctCl c then c :: ' ' :: r6go R6S.skipT [] rest
    else c :: r6go R6S.norm [] rest

def rule6 (l : List Char) : List Char := r6go R6S.norm [] l

/-- Rule 7: `text.replace('\\', '')`. -/
def rule7 (l : List Char) : List Char := l.filter (fun c => c ≠ '\\')

/-- Python `str.strip()`: remove leading and trailing whitespace. -/
def pstrip (l : List Char) : List Char :=
  (((l.dropWhile isWs).reverse.dropWhile isWs).reverse)

/-- The whole `_clean` pipeline on character lists, rules applied in the
source order. -/
def cleanL (l : List Char) : List Char :=
  pstrip (rule7 (rule6 (rule5 (rule4 (rule3 (rule2 (rule1 l)))))))

/-- `CerebrasRAGAgent._clean` on strings. -/
def clean (s : String) : String := String.mk (cleanL s.data)

end CerebrasRag

namespace CerebrasRag

/-! ## Data model (models.py) -/

/-- `Citation` (models.py lines 9-19).  `source_id` is a Python `int`
(unbounded, possibly negative), `quote` the verbatim quote. -/
structure Citation where
  source_id : Int
  quote : String
  deriving Repr, DecidableEq

/-- `QuotedAnswer` (models.py lines 22-32). -/
structure QuotedAnswer where
  answer : String
  citations : List Citation
  deriving Repr, DecidableEq

/-- A LangChain `Document`: page content plus the metadata keys this
repository reads or writes.  Metadata lookups in the source use
`metadata.get(key, default)`, hence the `Option` fields. -/
structure Document where
  page_content : String
  title? : Option String
  source? : Option String
  sectionName? : Option String
  content_type? : Option String
  chunk_index? : Option Nat
  total_chunks? : Option Nat
  deriving Repr, DecidableEq

/-- A document carrying only page content, all metadata absent. -/
def bareDoc (content : String) : Document :=
  { page_content := content, title? := none, source? := none, sectionName? := none,
    content_type? := none, chunk_index? := none, total_chunks? := none }

/-! ## `format_docs_with_id` (rag_agent.py lines 173-195) -/

def formatDocPart (i : Nat) (doc : Document) : String :=
  "Source ID: " ++ toString i ++ "\n" ++
  "Document Title: " ++ (doc.title?.getD "Untitled") ++ "\n" ++
  "Source: " ++ (doc.source?.getD "Unknown source") ++ "\n" ++
  "Content: " ++ clean doc.page_content

def format_docs_with_id (docs : List Document) : String :=
  String.intercalate "\n\n---\n\n" (docs.enum.map (fun p => formatDocPart p.1 p.2))

/-! ## `is_conversation_history_question` (rag_agent.py lines 197-222)

The eleven patterns are regexes over the lower-cased question built from
literal words, `\b` anchors and small alternations; each expands to a finite
set of literal strings that must occur with word boundaries on both sides.
Python `\b` separates word characters `[A-Za-z0-9_]` from non-word
characters or the string edge. -/

def beginsWith : List Char → List Char → Bool
  | [], _ => true
  | _ :: _, [] => false
  | p :: ps, c :: cs => p = c && beginsWith ps cs

def wordEndsAt (n : Nat) (s : List Char) : Bool :=
  match s.drop n with
  | [] => true
  | c :: _ => !isWordChar c

def owbGo (p : List Char) : Bool → List Char → Bool
  | _, [] => false
  | prevW, c :: rest =>
    (!prevW && beginsWith p (c :: rest) && wordEndsAt p.length (c :: rest))
      || owbGo p (isWordChar c) rest

/-- `re.search(pattern, s)` for a word-bounded literal `p` (the literal
begins and ends with word characters, as all the history literals do). -/
def occursWordBounded (p : String) (s : List Char) : Bool :=
  owbGo p.data false s

/-- Each history regex expanded into its alternation-free literals. -/
def historyLits : List String :=
  [ "first message",
    "earlier",
    "previous",
    "what did i say", "what did i ask", "what did i tell",
    "my first message", "my first question",
    "my last message", "my last question",
    "my previous message", "my previous question",
    "our conversation",
    "history",
    "before",
    "remember when",
    "i said", "i asked", "i told",
    "you said", "you told", "you answered" ]

def lowerStr (s : String) : String := String.mk (s.data.map Char.toLower)

def is_conversation_history_question (question : String) : Bool :=
  historyLits.any (fun lit => occursWordBounded lit (lowerStr question).data)

/-! ## `retrieve_with_citations` (rag_agent.py lines 224-267)

`similarity_search` and the Cohere rerank call are external services,
modelled as oracles that either return a document list or fail (a raised
exception carrying a message).  `score` models the similarity the vector
store ranks by (used only to state ordering contracts). -/

structure RetrievalEnv where
  similarity_search : String → Nat → Except String (List Document)
  cohere_key_present : Bool
  rerank : String → Nat → Except String (List Document)
  score : String → Document → Int

def retrieve_with_citations (env : RetrievalEnv) (question : String)
    (k : Nat) (use_reranking : Bool) : List Document :=
  match env.similarity_search question k with
  | Except.error _ => []
  | Except.ok retrieved_docs =>
    if use_reranking && env.cohere_key_present then
      match env.rerank question k with
      | Except.ok reranked_docs => reranked_docs
      | Except.error _ => retrieved_docs
    else retrieved_docs

/-! ## `generate_with_citations` (rag_agent.py lines 269-324)

The LLM chain invocation is an oracle from (formatted context, question) to
either a structured `QuotedAnswer` or a failure message; in the
non-structured branch the model returns a plain message, and the failure
fallback is a dict `{"answer": ...}`. -/

def genErrorText (e : String) : String :=
  "I encountered an error generating a response: " ++ e

def generate_with_citations_structured
    (llm_structured : String → String → Except String QuotedAnswer)
    (question : String) (documents : List Document) : QuotedAnswer :=
  match llm_structured (format_docs_with_id documents) question with
  | Except.ok response => response
  | Except.error e => { answer := genErrorText e, citations := [] }

inductive GenOutput where
  | structured : QuotedAnswer → GenOutput
  | message : String → GenOutput
  | answerDict : String → GenOutput
  deriving Repr, DecidableEq

def generate_with_citations
    (llm_structured : String → String → Except String QuotedAnswer)
    (llm_plain : String → String → Except String String)
    (question : String) (documents : List Document)
    (use_structured_output : Bool) : GenOutput :=
  if use_structured_output then
    GenOutput.structured (generate_with_citations_structured llm_structured question documents)
  else
    match llm_plain (format_docs_with_id documents) question with
    | Except.ok response => GenOutput.message response
    | Except.error e => GenOutput.answerDict (genErrorText e)

/-! ## Conversation memory and the agent environment -/

structure ConvMessage where
  isHuman : Bool
  content : String
  deriving Repr, DecidableEq

def historyText (history : List ConvMessage) : String :=
  String.intercalate "\n" (history.map (fun m =>
    (if m.isHuman then "Human" else "Assistant") ++ ": " ++ m.content))

def historyPrompt (question : String) (history : List ConvMessage) : String :=
  "Based on our conversation history, please answer this question: " ++ question ++
  "\n\nConversation History:\n" ++ historyText history

/-- The agent with its external collaborators: retrieval stack, LLM
invocation (structured and plain), the LangGraph conversation graph
(`graph_present` is `self.graph is not None`; `graph_chat` runs a question
through the graph; `memory_write` is `graph.invoke` appending a
human/assistant exchange, which may raise) and the stored history for the
active thread (`get_conversation_history`). -/
structure AgentEnv where
  retrieval : RetrievalEnv
  llm_structured : String → String → Except String QuotedAnswer
  llm_plain : String → Except String String
  graph_present : Bool
  graph_chat : String → Except String String
  memory_write : String → String → Except String Unit
  history : List ConvMessage

/-! ## `ask_question` (rag_agent.py lines 505-592) -/

def noHistoryText : String :=
  "I don't have any conversation history to reference. This appears to be the start of our conversation."

def noDocsText : String :=
  "No relevant documents found. Please check if the vector database is populated."

def noHistoryAnswer : QuotedAnswer := { answer := noHistoryText, citations := [] }

def noDocsAnswer : QuotedAnswer := { answer := noDocsText, citations := [] }

def processErrorAnswer (e : String) : QuotedAnswer :=
  { answer := "An error occurred while processing your question: " ++ e, citations := [] }

def ask_question (env : AgentEnv) (question : String)
    (use_citations : Bool) (use_reranking : Bool) : QuotedAnswer :=
  if is_conversation_history_question question then
    if env.history.isEmpty then noHistoryAnswer
    else
      match env.llm_plain (historyPrompt question env.history) with
      | Except.error e => processErrorAnswer e
      | Except.ok content =>
        if env.graph_present then
          match env.memory_write question content with
          | Except.error e => processErrorAnswer e
          | Except.ok _ => { answer := content, citations := [] }
        else { answer := content, citations := [] }
  else if use_citations then
    match retrieve_with_citations env.retrieval question 6 use_reranking with
    | [] => noDocsAnswer
    | d :: ds =>
      let response := generate_with_citations_structured env.llm_structured question (d :: ds)
      if env.graph_present then
        match env.memory_write question response.answer with
        | Except.error e => processErrorAnswer e
        | Except.ok _ => response
      else response
  else
    if env.graph_present then
      match env.graph_chat question with
      | Except.error e => processErrorAnswer e
      | Except.ok content => { answer := content, citations := [] }
    else
      match env.llm_plain question with
      | Except.error e => processErrorAnswer e
      | Except.ok content => { answer := content, citations := [] }

end CerebrasRag

namespace CerebrasRag

/-! ## `stream_response_with_citations` (rag_agent.py lines 363-454) and
`_handle_history_question` (lines 456-503)

The generator is modelled as the list of chunks it yields.  A Python
exception inside the loop body (the `IndexError` raised by
`documents[citation.source_id]` for a negative index below `-len`) aborts
the generator; the surrounding `try` turns it into a final error chunk. -/

inductive Chunk where
  | status : String → Chunk
  | error : String → Chunk
  | answer : String → Chunk
  | citations_header : Chunk
  | citation : Int → String → String → String → Chunk
  | warning : String → Chunk
  deriving Repr, DecidableEq

/-- Python list indexing `docs[i]`: non-negative indices from the front,
negative indices from the back, `none` = `IndexError`. -/
def pyGet (docs : List Document) (i : Int) : Option Document :=
  if 0 ≤ i then docs.get? i.toNat
  else if (-i).toNat ≤ docs.length then docs.get? (docs.length - (-i).toNat)
  else none

def indexErrorText : String := "list index out of range"

/-- The citation display loop (rag_agent.py lines 409-421): each citation
passes the guard `citation.source_id < len(documents)`, in which case a
citation chunk is yielded with the metadata of `documents[source_id]`;
otherwise the citation is silently skipped.  The boolean records whether an
`IndexError` aborted the loop. -/
def emitCitations (docs : List Document) : List Citation → (List Chunk × Bool)
  | [] => ([], false)
  | c :: rest =>
    if c.source_id < (docs.length : Int) then
      match pyGet docs c.source_id with
      | some doc =>
        let tail := emitCitations docs rest
        (Chunk.citation c.source_id c.quote (doc.title?.getD "Untitled")
            (doc.source?.getD "Unknown source") :: tail.1, tail.2)
      | none => ([], true)
    else emitCitations docs rest

/-- The memory write at the end of a streamed exchange (lines 424-433):
wrapped in its own `try`, so a failure only yields a warning chunk. -/
def memoryChunks (env : AgentEnv) (question answerText : String) : List Chunk :=
  if env.graph_present then
    match env.memory_write question answerText with
    | Except.ok _ => []
    | Except.error e => [Chunk.warning ("Failed to save to memory: " ++ e)]
  else []

def handle_history_question (env : AgentEnv) (question : String) : List Chunk :=
  Chunk.status "🔍 Searching conversation history..." ::
  if env.history.isEmpty then [Chunk.answer noHistoryText]
  else
    match env.llm_plain (historyPrompt question env.history) with
    | Except.error e => [Chunk.error ("An error occurred: " ++ e)]
    | Except.ok content => Chunk.answer content :: memoryChunks env question content

def stream_response_with_citations (env : AgentEnv) (question : String)
    (use_citations : Bool) (use_reranking : Bool) : List Chunk :=
  if is_conversation_history_question question then
    handle_history_question env question
  else if use_citations then
    Chunk.status "🔍 Retrieving relevant documentation..." ::
    (match retrieve_with_citations env.retrieval question 6 use_reranking with
     | [] => [Chunk.error noDocsText]
     | d :: ds =>
       let documents := d :: ds
       let response := generate_with_citations_structured env.llm_structured question documents
       Chunk.status ("📄 Retrieved " ++ toString documents.length ++ " relevant documents") ::
       Chunk.status "📝 Generating response with citations..." ::
       Chunk.answer response.answer ::
       (if response.citations.isEmpty then memoryChunks env question response.answer
        else
          let ec := emitCitations documents response.citations
          Chunk.citations_header :: ec.1 ++
            (if ec.2 then [Chunk.error ("An error occurred: " ++ indexErrorText)]
             else memoryChunks env question response.answer)))
  else
    Chunk.status "🤖 Generating response..." ::
    (if env.graph_present then
      match env.graph_chat question with
      | Except.ok content => [Chunk.answer content]
      | Except.error e => [Chunk.error ("An error occurred: " ++ e)]
     else
      match env.llm_plain question with
      | Except.ok content => [Chunk.answer content]
      | Except.error e => [Chunk.error ("An error occurred: " ++ e)])

end CerebrasRag

namespace CerebrasRag

/-! ## Vector-database population (populate_vectordb.py)

`populate_index` (lines 344-407) processes the chunked documents in batches
of 10; for each batch it embeds the page contents (an external call that may
fail, in which case the batch is logged and skipped) and upserts one vector
per document whose id is `doc_<global offset>` and whose metadata fields are
truncated: text to 1000 characters, title to 100, source to 200. -/

/-- Python string slicing `s[:n]` (by code points). -/
def strTake (n : Nat) (s : String) : String := String.mk (s.data.take n)

structure VectorMeta where
  text : String
  title : String
  source : String
  sectionName : String
  content_type : String
  chunk_index : Nat
  deriving Repr, DecidableEq

structure UpsertVector where
  id : String
  values : List Int
  meta : VectorMeta
  deriving Repr, DecidableEq

/-- `vector_id = f"doc_{i + j}"` (populate_vectordb.py line 375). -/
def vectorId (n : Nat) : String := "doc_" ++ toString n

/-- The truncated metadata dict (populate_vectordb.py lines 378-385). -/
def vectorMeta (doc : Document) : VectorMeta :=
  { text := strTake 1000 doc.page_content,
    title := strTake 100 (doc.title?.getD ""),
    source := strTake 200 (doc.source?.getD ""),
    sectionName := doc.sectionName?.getD "",
    content_type := doc.content_type?.getD "",
    chunk_index := doc.chunk_index?.getD 0 }

/-- The vector built for the document at global offset `n`
(populate_vectordb.py lines 374-391). -/
def mkVector (n : Nat) (doc : Document) (embedding : List Int) : UpsertVector :=
  { id := vectorId n, values := embedding, meta := vectorMeta doc }

/-- The batch loop `for i in range(0, len(documents), batch_size)` with
`batch_size = 10`, returning the list of successful upsert calls (each one
batch of vectors).  `embed` models `self.embeddings.embed_documents`; a
failing batch is skipped (`except ... continue`); within a batch the
documents are paired with the returned embeddings by
`zip(batch, embeddings)`. -/
def populateGo (embed : List String → Except String (List (List Int))) :
    List Document → Nat → List (List UpsertVector)
  | [], _ => []
  | d :: ds, off =>
    let batch := (d :: ds).take 10
    let call :=
      match embed (batch.map (fun doc => doc.page_content)) with
      | Except.ok embeddings =>
        [(batch.zip embeddings).enum.map (fun p => mkVector (off + p.1) p.2.1 p.2.2)]
      | Except.error _ => []
    call ++ populateGo embed ((d :: ds).drop 10) (off + 10)
  termination_by l _ => l.length
  decreasing_by simp [List.length_drop]; omega

/-- `populate_index` (lines 344-407): with no documents it returns before
touching the index; otherwise it runs the batch loop. -/
def populate_index (embed : List String → Except String (List (List Int)))
    (documents : List Document) : List (List UpsertVector) :=
  if documents.isEmpty then [] else populateGo embed documents 0

/-- `chunk_documents` (lines 278-309): the text splitter itself is an
external library, modelled as an oracle per document; the repository's own
loop adds `chunk_index` / `total_chunks` metadata and concatenates. -/
def chunk_documents (splitter : Document → List Document)
    (documents : List Document) : List Document :=
  documents.flatMap (fun doc =>
    let chunks := splitter doc
    chunks.enum.map (fun p =>
      { p.2 with chunk_index? := some p.1, total_chunks? := some chunks.length }))

/-- Outcome of one run of `main` (populate_vectordb.py lines 410-470). -/
structure PipelineResult where
  fallback_invoked : Bool
  index_setup : Bool
  upsert_calls : List (List UpsertVector)
  deriving Repr, DecidableEq

/-- `main` (lines 410-470): crawl with Firecrawl, fall back when fewer than
5 documents were obtained, abort when nothing was crawled at all, otherwise
chunk and populate.  The two crawls are oracles returning the documents they
produced; `index_setup` records whether `setup_pinecone_index` ran (index
created or opened), `upsert_calls` the upserts performed. -/
def main_model (primary fallback_docs : List Document)
    (splitter : Document → List Document)
    (embed : List String → Except String (List (List Int))) : PipelineResult :=
  let all_documents := primary
  let useFallback := all_documents.length < 5
  let all_documents := if useFallback then all_documents ++ fallback_docs else all_documents
  if all_documents.isEmpty then
    { fallback_invoked := useFallback, index_setup := false, upsert_calls := [] }
  else
    let chunked := chunk_documents splitter all_documents
    if chunked.isEmpty then
      { fallback_invoked := useFallback, index_setup := false, upsert_calls := [] }
    else
      { fallback_invoked := useFallback, index_setup := true,
        upsert_calls := populateGo embed chunked 0 }

end CerebrasRag

namespace CerebrasRag

/-! ## Concrete instances used by witnesses -/

def docA : Document :=
  { bareDoc "Cerebras inference is fast." with title? := some "Intro", source? := some "https://docs/intro" }

def docB : Document :=
  { bareDoc "Use the chat completions endpoint." with title? := some "API", source? := some "https://docs/api" }

/-! ## C3 -/

/-- C3: retrieval never raises.  If the similarity search itself fails,
`retrieve_with_citations` returns the empty list; if the search succeeds and
the reranking pass fails (for any reason, and for any flag settings),
the un-reranked similarity result set is returned. -/
theorem C3_retrieval_degrades (env : RetrievalEnv) (question : String)
    (k : Nat) (use_reranking : Bool) :
    (∀ e, env.similarity_search question k = Except.error e →
      retrieve_with_citations env question k use_reranking = [])
  ∧ (∀ docs e, env.similarity_search question k = Except.ok docs →
      env.rerank question k = Except.error e →
      retrieve_with_citations env question k use_reranking = docs) := by
  constructor
  · intro e he
    simp [retrieve_with_citations, he]
  · intro docs e hs hr
    simp [retrieve_with_citations, hs, hr]

def envC3down : RetrievalEnv :=
  { similarity_search := fun _ _ => Except.error "store unreachable",
    cohere_key_present := true,
    rerank := fun _ _ => Except.error "store unreachable",
    score := fun _ _ => 0 }

def envC3rerankFail : RetrievalEnv :=
  { similarity_search := fun _ _ => Except.ok [docA, docB],
    cohere_key_present := true,
    rerank := fun _ _ => Except.error "reranker down",
    score := fun _ _ => 0 }

theorem C3_retrieval_degrades_witness :
    retrieve_with_citations envC3down "q" 6 false = []
  ∧ retrieve_with_citations envC3rerankFail "q" 6 true = [docA, docB] :=
  ⟨(C3_retrieval_degrades envC3down "q" 6 false).1 "store unreachable" rfl,
   (C3_retrieval_degrades envC3rerankFail "q" 6 true).2 [docA, docB] "reranker down" rfl rfl⟩

/-! ## C4 -/

/-- C4: under the documented service contracts (the vector store returns at
most `k` documents, ordered by descending similarity; the reranker returns at
most its `top_n = 4` documents), `retrieve_with_citations` with
`use_reranking = false` returns at most `k` documents (the call sites use the
default `k = 6`) ordered by descending similarity, and with
`use_reranking = true` (and the Cohere key present, so the rerank branch
actually runs) at most 4 documents. -/
theorem C4_retrieval_bounds (env : RetrievalEnv) (question : String) (k : Nat)
    (docs : List Document)
    (hsim : env.similarity_search question k = Except.ok docs)
    (hlen : docs.length ≤ k)
    (hsorted : docs.Sorted (fun a b => env.score question b ≤ env.score question a)) :
    ((retrieve_with_citations env question k false).length ≤ k
      ∧ (retrieve_with_citations env question k false).Sorted
          (fun a b => env.score question b ≤ env.score question a))
  ∧ (∀ reranked, env.cohere_key_present = true →
      env.rerank question k = Except.ok reranked →
      reranked.length ≤ 4 →
      (retrieve_with_citations env question k true).length ≤ 4) := by
  have hfalse : retrieve_with_citations env question k false = docs := by
    simp [retrieve_with_citations, hsim]
  refine ⟨⟨by rw [hfalse]; exact hlen, by rw [hfalse]; exact hsorted⟩, ?_⟩
  intro reranked hkey hr hrlen
  have : retrieve_with_citations env question k true = reranked := by
    simp [retrieve_with_citations, hsim, hkey, hr]
  rw [this]; exact hrlen

def envC4 : RetrievalEnv :=
  { similarity_search := fun _ _ => Except.ok [docA, docB],
    cohere_key_present := true,
    rerank := fun _ _ => Except.ok [docB],
    score := fun _ doc => if doc.page_content = docA.page_content then 9 else 3 }

theorem C4_retrieval_bounds_witness :
    ((retrieve_with_citations envC4 "q" 6 false).length ≤ 6
      ∧ (retrieve_with_citations envC4 "q" 6 false).Sorted
          (fun a b => envC4.score "q" b ≤ envC4.score "q" a))
  ∧ (retrieve_with_citations envC4 "q" 6 true).length ≤ 4 :=
  ⟨(C4_retrieval_bounds envC4 "q" 6 [docA, docB] rfl (by decide) (by decide)).1,
   (C4_retrieval_bounds envC4 "q" 6 [docA, docB] rfl (by decide) (by decide)).2
      [docB] rfl rfl (by decide)⟩

/-! ## C5 -/

/-- C5: for every question and non-empty document list, when the structured
LLM call fails (the model call raised, or its output could not be parsed
into the `QuotedAnswer` shape, both of which surface as the chain raising),
`generate_with_citations` returns (does not raise) an `Answer` whose text is
the generic failure message and whose citation list is empty. -/
theorem C5_generation_failure_fallback
    (llm_structured : String → String → Except String QuotedAnswer)
    (llm_plain : String → String → Except String String)
    (question : String) (documents : List Document) (e : String)
    (_hne : documents ≠ [])
    (hfail : llm_structured (format_docs_with_id documents) question = Except.error e) :
    generate_with_citations llm_structured llm_plain question documents true =
      GenOutput.structured { answer := genErrorText e, citations := [] } := by
  simp [generate_with_citations, generate_with_citations_structured, hfail]

theorem C5_generation_failure_fallback_witness :
    generate_with_citations (fun _ _ => Except.error "parse failure")
        (fun _ _ => Except.ok "unused") "q" [docA] true =
      GenOutput.structured { answer := genErrorText "parse failure", citations := [] } :=
  C5_generation_failure_fallback (fun _ _ => Except.error "parse failure")
    (fun _ _ => Except.ok "unused") "q" [docA] "parse failure" (by decide) rfl

end CerebrasRag

namespace CerebrasRag

/-! ## C6 -/

/-- C6: for every non-history question asked with citations enabled, when
retrieval yields an empty result set both entry points return normally
(these are total functions, so no exception escapes): `ask_question`
produces the "no relevant documents" `Answer` with an empty citation list,
and the streaming path yields the corresponding error chunk.  (A question
classified as history-referencing never reaches retrieval at all, which is
the subject of C7.) -/
theorem C6_empty_retrieval_answer (env : AgentEnv) (question : String)
    (use_reranking : Bool)
    (hq : is_conversation_history_question question = false)
    (hret : retrieve_with_citations env.retrieval question 6 use_reranking = []) :
    ask_question env question true use_reranking = noDocsAnswer
  ∧ (ask_question env question true use_reranking).citations = []
  ∧ stream_response_with_citations env question true use_reranking =
      [Chunk.status "🔍 Retrieving relevant documentation...", Chunk.error noDocsText] := by
  refine ⟨?_, ?_, ?_⟩ <;>
    simp [ask_question, stream_response_with_citations, hq, hret, noDocsAnswer]

def envEmptyStore : AgentEnv :=
  { retrieval :=
      { similarity_search := fun _ _ => Except.ok [],
        cohere_key_present := false,
        rerank := fun _ _ => Except.error "unused",
        score := fun _ _ => 0 },
    llm_structured := fun _ _ => Except.ok { answer := "unused", citations := [] },
    llm_plain := fun _ => Except.ok "unused",
    graph_present := false,
    graph_chat := fun _ => Except.error "no graph",
    memory_write := fun _ _ => Except.ok (),
    history := [] }

theorem C6_empty_retrieval_answer_witness :
    ask_question envEmptyStore "What is Cerebras?" true false = noDocsAnswer
  ∧ (ask_question envEmptyStore "What is Cerebras?" true false).citations = []
  ∧ stream_response_with_citations envEmptyStore "What is Cerebras?" true false =
      [Chunk.status "🔍 Retrieving relevant documentation...", Chunk.error noDocsText] :=
  C6_empty_retrieval_answer envEmptyStore "What is Cerebras?" false (by decide) rfl

/-! ## C7 -/

/-- C7: for every question classified as history-referencing, if the
conversation memory for the thread is empty then both entry points return
the fixed "no conversation history" answer with an empty citation list.
The statement holds for every environment (in particular for arbitrary
retrieval and LLM oracles) and the result does not depend on them, which is
the shallow-embedding form of "the retrieval/citation path is not
invoked". -/
theorem C7_history_question_empty_memory (env : AgentEnv) (question : String)
    (use_citations use_reranking : Bool)
    (hq : is_conversation_history_question question = true)
    (hh : env.history = []) :
    ask_question env question use_citations use_reranking = noHistoryAnswer
  ∧ (ask_question env question use_citations use_reranking).citations = []
  ∧ stream_response_with_citations env question use_citations use_reranking =
      [Chunk.status "🔍 Searching conversation history...", Chunk.answer noHistoryText] := by
  have hh' : env.history.isEmpty = true := by simp [hh]
  refine ⟨?_, ?_, ?_⟩ <;>
    simp [ask_question, stream_response_with_citations, handle_history_question,
      hq, hh', noHistoryAnswer]

theorem C7_history_question_empty_memory_witness :
    ask_question envEmptyStore "What was my first message?" true false = noHistoryAnswer
  ∧ (ask_question envEmptyStore "What was my first message?" true false).citations = []
  ∧ stream_response_with_citations envEmptyStore "What was my first message?" true false =
      [Chunk.status "🔍 Searching conversation history...", Chunk.answer noHistoryText] :=
  C7_history_question_empty_memory envEmptyStore "What was my first message?" true false
    (by decide) rfl

/-! ## C8 -/

/-- C8: when both the primary (Firecrawl) crawl and the fallback crawl
yield zero documents, `main` aborts with no index mutation: the Pinecone
index is neither created nor opened and no upsert call is made.  Moreover
the fallback crawl is consulted exactly when the primary crawl produced
fewer than 5 documents. -/
theorem C8_abort_without_mutation :
    (∀ (splitter : Document → List Document)
       (embed : List String → Except String (List (List Int))),
      main_model [] [] splitter embed =
        { fallback_invoked := true, index_setup := false, upsert_calls := [] })
  ∧ (∀ (primary fallback_docs : List Document)
       (splitter : Document → List Document)
       (embed : List String → Except String (List (List Int))),
      (main_model primary fallback_docs splitter embed).fallback_invoked
        = decide (primary.length < 5)) := by
  constructor
  · intro splitter embed
    simp [main_model]
  · intro primary fallback_docs splitter embed
    simp only [main_model]
    split <;> split <;> (try split) <;> simp

end CerebrasRag

namespace CerebrasRag

/-! ## C10 -/

/-- C10: in the streaming display path the guard is only the upper bound
`citation.source_id < len(documents)`, so a negative `source_id` (within
Python's negative-indexing range, e.g. `-1`) passes the guard and is emitted
as a citation chunk whose source metadata is resolved by negative indexing
from the end of the frozen document list. -/
theorem C10_negative_citation_emitted (docs : List Document) (quote : String)
    (id : Int) (hneg : id < 0) (hge : -(docs.length : Int) ≤ id) :
    ∃ doc, docs.get? (docs.length - (-id).toNat) = some doc ∧
      emitCitations docs [{ source_id := id, quote := quote }] =
        ([Chunk.citation id quote (doc.title?.getD "Untitled")
            (doc.source?.getD "Unknown source")], false) := by
  have h1 : (-id).toNat ≤ docs.length := by omega
  have h2 : 1 ≤ (-id).toNat := by omega
  have hidx : docs.length - (-id).toNat < docs.length := by omega
  have hg : docs[docs.length - (-id).toNat]? =
      some (docs.get ⟨docs.length - (-id).toNat, hidx⟩) := by
    rw [List.getElem?_eq_getElem hidx]; rfl
  refine ⟨docs.get ⟨docs.length - (-id).toNat, hidx⟩,
    by rw [List.get?_eq_getElem?, hg], ?_⟩
  have hguard : id < (docs.length : Int) := by omega
  have hn : ¬ (0 ≤ id) := by omega
  simp [emitCitations, pyGet, hguard, hn, h1, List.get?_eq_getElem?, hg]

theorem C10_negative_citation_emitted_witness :
    ∃ doc, [docA, docB].get? ([docA, docB].length - (-(-1 : Int)).toNat) = some doc ∧
      emitCitations [docA, docB] [{ source_id := -1, quote := "q" }] =
        ([Chunk.citation (-1) "q" (doc.title?.getD "Untitled")
            (doc.source?.getD "Unknown source")], false) :=
  C10_negative_citation_emitted [docA, docB] "q" (-1) (by decide) (by decide)

/-! ## C1 -/

def envC1 : AgentEnv :=
  { retrieval :=
      { similarity_search := fun _ _ => Except.ok [docA],
        cohere_key_present := false,
        rerank := fun _ _ => Except.error "unused",
        score := fun _ _ => 0 },
    llm_structured := fun _ _ =>
      Except.ok { answer := "Cerebras is fast.",
                  citations := [{ source_id := 7, quote := "made up" }] },
    llm_plain := fun _ => Except.ok "unused",
    graph_present := false,
    graph_chat := fun _ => Except.error "no graph",
    memory_write := fun _ _ => Except.ok (),
    history := [] }

/-- C1 (refuted as stated): the retrieval result set frozen for the
question has length 1, yet the `Answer` returned by the citation-generation
path carries a citation with `source_id = 7`, which does not lie in
`[0, 1)`: the model output is passed through without any range
validation. -/
theorem C1_counterexample :
    retrieve_with_citations envC1.retrieval "What is MoE?" 6 false = [docA]
  ∧ (ask_question envC1 "What is MoE?" true false).citations =
      [{ source_id := 7, quote := "made up" }]
  ∧ ¬ (0 ≤ (7 : Int) ∧ (7 : Int) < ([docA].length : Int)) := by
  exact ⟨rfl, rfl, by decide⟩

/-- C1 (amended): the `Answer` itself carries the language-model citations
unvalidated; the only range check in the system is in the streaming display
path, and it enforces only the upper bound: every citation chunk actually
emitted for the frozen document list has `source_id < len(documents)` (the
lower bound 0 is not enforced, cf. C10). -/
theorem C1_emitted_citation_upper_bound (docs : List Document)
    (cits : List Citation) (id : Int) (quote title url : String)
    (hmem : Chunk.citation id quote title url ∈ (emitCitations docs cits).1) :
    id < (docs.length : Int) := by
  induction cits with
  | nil => simp [emitCitations] at hmem
  | cons c rest ih =>
    by_cases hc : c.source_id < (docs.length : Int)
    · rcases hpg : pyGet docs c.source_id with _ | doc
      · simp [emitCitations, hc, hpg] at hmem
      · simp only [emitCitations, hc, if_true, hpg, List.mem_cons] at hmem
        rcases hmem with h1 | hmem
        · cases h1; exact hc
        · exact ih hmem
    · simp only [emitCitations, hc, if_false] at hmem
      exact ih hmem

theorem C1_emitted_citation_upper_bound_witness :
    (0 : Int) < ([docA].length : Int) :=
  C1_emitted_citation_upper_bound [docA] [{ source_id := 0, quote := "q" }]
    0 "q" "Intro" "https://docs/intro" (by decide)

end CerebrasRag

namespace CerebrasRag

/-! ## C9 -/

theorem populateGo_flatten_get
    (embed : List String → Except String (List (List Int)))
    (hok : ∀ texts, ∃ vs, embed texts = Except.ok vs ∧ vs.length = texts.length) :
    ∀ (l : List Document) (off n : Nat),
      Option.map (fun v => (v.id, v.meta)) (populateGo embed l off).flatten[n]? =
        Option.map (fun d => (vectorId (off + n), vectorMeta d)) l[n]? := by
  intro l off
  induction l, off using populateGo.induct embed with
  | case1 off => intro n; simp [populateGo]
  | case2 d ds off ih =>
    intro n
    obtain ⟨vs, hv, hvlen⟩ := hok (((d :: ds).take 10).map (fun doc => doc.page_content))
    rw [List.length_map] at hvlen
    have hzlen : (((d :: ds).take 10).zip vs).length = min 10 (d :: ds).length := by
      rw [List.length_zip, hvlen, min_self, List.length_take]
    have hlen : ((((d :: ds).take 10).zip vs).enum.map
        (fun p => mkVector (off + p.1) p.2.1 p.2.2)).length = min 10 (d :: ds).length := by
      rw [List.length_map, List.enum_length, hzlen]
    simp only [populateGo, hv, List.singleton_append, List.flatten_cons]
    rw [List.getElem?_append, hlen]
    by_cases hn : n < min 10 (d :: ds).length
    · have h10 : n < 10 := lt_of_lt_of_le hn (min_le_left _ _)
      rw [if_pos hn]
      have hnz : n < (((d :: ds).take 10).zip vs).length := by rw [hzlen]; exact hn
      have hnl : n < (d :: ds).length := lt_of_lt_of_le hn (min_le_right _ _)
      rw [List.getElem?_map, List.getElem?_enum]
      rw [List.getElem?_eq_getElem hnz, List.getElem_zip]
      rw [List.getElem?_eq_getElem hnl]
      simp [mkVector]
      exact congrArg vectorMeta
        (@List.getElem_take _ (d :: ds) 10 n (by rw [List.length_take]; omega))
    · rw [if_neg hn]
      push_neg at hn
      by_cases hsmall : (d :: ds).length ≤ 10
      · have hdrop : (d :: ds).drop 10 = [] := List.drop_eq_nil_of_le hsmall
        have hnone : (d :: ds)[n]? = none := List.getElem?_eq_none (by omega)
        rw [hdrop, hnone]
        simp [populateGo]
      · push_neg at hsmall
        have hmin : min 10 (d :: ds).length = 10 := by omega
        rw [hmin] at hn ⊢
        rw [ih]
        rw [List.getElem?_drop]
        have h1 : 10 + (n - 10) = n := by omega
        have h2 : off + 10 + (n - 10) = off + n := by omega
        rw [h1, h2]

theorem populateGo_batch_bound
    (embed : List String → Except String (List (List Int))) :
    ∀ (l : List Document) (off : Nat) (b : List UpsertVector),
      b ∈ populateGo embed l off → b.length ≤ 10 := by
  intro l off
  induction l, off using populateGo.induct embed with
  | case1 off => intro b hb; simp [populateGo] at hb
  | case2 d ds off ih =>
    intro b hb
    simp only [populateGo] at hb
    rcases List.mem_append.mp hb with hb | hb
    · rcases he : embed (((d :: ds).take 10).map (fun doc => doc.page_content)) with e | vs
      · rw [he] at hb; simp at hb
      · rw [he] at hb
        simp only [List.mem_singleton] at hb
        subst hb
        rw [List.length_map, List.enum_length, List.length_zip, List.length_take]
        omega
    · exact ih b hb

/-- C9: with the embedding service meeting its contract (one embedding per
text), `populate_index` processes the document list in batches of at most
10 documents per upsert call, and the flattened sequence of upserted
vectors carries at global offset `n` exactly the vector for document `n`:
its id is `vectorId n = "doc_" ++ n` and its metadata is `vectorMeta`,
i.e. text truncated to 1000 characters, title to 100, source URL to 200 —
so identical ordering across runs overwrites the same ids rather than
duplicating. -/
theorem C9_batches_ids_truncation
    (embed : List String → Except String (List (List Int)))
    (docs : List Document)
    (hok : ∀ texts, ∃ vs, embed texts = Except.ok vs ∧ vs.length = texts.length) :
    (∀ n, Option.map (fun v => (v.id, v.meta)) (populate_index embed docs).flatten[n]? =
        Option.map (fun d => (vectorId n, vectorMeta d)) docs[n]?)
  ∧ (∀ b ∈ populate_index embed docs, b.length ≤ 10) := by
  constructor
  · intro n
    by_cases hd : docs.isEmpty
    · have : docs = [] := List.isEmpty_iff.mp hd
      subst this
      simp [populate_index]
    · simp only [populate_index, hd, if_false]
      simpa using populateGo_flatten_get embed hok docs 0 n
  · intro b hb
    by_cases hd : docs.isEmpty
    · simp [populate_index, hd] at hb
    · simp only [populate_index, hd, if_false] at hb
      exact populateGo_batch_bound embed docs 0 b hb

theorem C9_batches_ids_truncation_witness :
    Option.map (fun v => (v.id, v.meta))
        (populate_index (fun ts => Except.ok (ts.map (fun _ => ([] : List Int))))
          [docA, docB]).flatten[1]? =
      Option.map (fun d => (vectorId 1, vectorMeta d)) [docA, docB][1]? :=
  (C9_batches_ids_truncation (fun ts => Except.ok (ts.map (fun _ => ([] : List Int))))
      [docA, docB]
      (fun ts => ⟨ts.map (fun _ => ([] : List Int)), rfl, List.length_map ts _⟩)).1 1

end CerebrasRag

namespace CerebrasRag

/-! ## C2: helper lemmas about the normalizer

The normalizer is not idempotent (see `C2_counterexample`): cleaning can
expose a new spaced-letter artifact that only the next application of the
letter-joining rule collapses.  The amended statement proved below:
applying `_clean` twice equals applying it once whenever rules 1, 3, 4, 5
and 6 individually leave the cleaned text unchanged — and rules 2 and 7 and
the final strip always do (their fixed-point property on cleaned text is
proved unconditionally here). -/

theorem ws_ne_underscore {c : Char} (h : isWs c = true) : c ≠ '_' := by
  intro e
  subst e
  exact absurd h (by decide)

theorem r2go_no_underscore : ∀ (st : R2S) (pend l : List Char),
    '_' ∉ pend → '_' ∉ r2go st pend l := by
  intro st pend l
  induction l generalizing st pend with
  | nil =>
    intro hp h
    cases st <;> simp only [r2go] at h
    · exact hp h
    · exact List.not_mem_nil _ h
    · exact List.not_mem_nil _ h
  | cons c rest ih =>
    intro hp h
    cases st <;> simp only [r2go] at h
    · by_cases hc : c = '_'
      · rw [if_pos hc] at h
        rcases List.mem_cons.mp h with h' | h'
        · exact absurd h'.symm (by decide)
        · exact ih R2S.inU [] (by simp) h'
      · rw [if_neg hc] at h
        by_cases hw : isWs c = true
        · rw [if_pos hw] at h
          refine ih R2S.norm (pend ++ [c]) ?_ h
          intro hm
          rcases List.mem_append.mp hm with hm | hm
          · exact hp hm
          · exact ws_ne_underscore hw (List.mem_singleton.mp hm).symm
        · rw [if_neg hw] at h
          rcases List.mem_append.mp h with h' | h'
          · exact hp h'
          · rcases List.mem_cons.mp h' with h'' | h''
            · exact hc h''.symm
            · exact ih R2S.norm [] (by simp) h''
    · by_cases hc : c = '_'
      · rw [if_pos hc] at h
        exact ih R2S.inU [] (by simp) h
      · rw [if_neg hc] at h
        by_cases hw : isWs c = true
        · rw [if_pos hw] at h
          exact ih R2S.afterU [] (by simp) h
        · rw [if_neg hw] at h
          rcases List.mem_cons.mp h with h'' | h''
          · exact hc h''.symm
          · exact ih R2S.norm [] (by simp) h''
    · by_cases hc : c = '_'
      · rw [if_pos hc] at h
        rcases List.mem_cons.mp h with h' | h'
        · exact absurd h'.symm (by decide)
        · exact ih R2S.inU [] (by simp) h'
      · rw [if_neg hc] at h
        by_cases hw : isWs c = true
        · rw [if_pos hw] at h
          exact ih R2S.afterU [] (by simp) h
        · rw [if_neg hw] at h
          rcases List.mem_cons.mp h with h'' | h''
          · exact hc h''.symm
          · exact ih R2S.norm [] (by simp) h''

theorem r2go_norm_id : ∀ (l pend : List Char),
    '_' ∉ l → r2go R2S.norm pend l = pend ++ l := by
  intro l
  induction l with
  | nil => intro pend _; simp [r2go]
  | cons c rest ih =>
    intro pend h
    have hc : ¬ c = '_' := fun e => h (e ▸ List.mem_cons_self c rest)
    have hrest : '_' ∉ rest := fun hr => h (List.mem_cons_of_mem _ hr)
    simp only [r2go, if_neg hc]
    by_cases hw : isWs c = true
    · rw [if_pos hw, ih (pend ++ [c]) hrest]
      simp
    · rw [if_neg hw, ih [] hrest]
      simp

theorem rule2_id (l : List Char) (h : '_' ∉ l) : rule2 l = l := by
  unfold rule2
  simpa using r2go_norm_id l [] h

theorem rule7_id (l : List Char) (h : '\\' ∉ l) : rule7 l = l := by
  apply List.filter_eq_self.mpr
  intro a ha
  simp only [ne_eq, decide_eq_true_eq]
  intro e
  exact h (e ▸ ha)

theorem not_backslash_mem_rule7 (z : List Char) : '\\' ∉ rule7 z := by
  intro h
  have := List.of_mem_filter h
  simp at this

end CerebrasRag

namespace CerebrasRag

theorem mem_r3go : ∀ (inWs : Bool) (l : List Char) (x : Char),
    x ∈ r3go inWs l → x ∈ l ∨ x = ' ' := by
  intro inWs l
  induction l generalizing inWs with
  | nil => intro x h; simp [r3go] at h
  | cons c rest ih =>
    intro x h
    simp only [r3go] at h
    by_cases hc : isWs c = true
    · rw [if_pos hc] at h
      by_cases hw : inWs = true
      · rw [if_pos hw] at h
        rcases ih true x h with h' | h'
        · exact Or.inl (List.mem_cons_of_mem _ h')
        · exact Or.inr h'
      · rw [if_neg hw] at h
        rcases List.mem_cons.mp h with h' | h'
        · exact Or.inr h'
        · rcases ih true x h' with h'' | h''
          · exact Or.inl (List.mem_cons_of_mem _ h'')
          · exact Or.inr h''
    · rw [if_neg hc] at h
      rcases List.mem_cons.mp h with h' | h'
      · exact Or.inl (h' ▸ List.mem_cons_self c rest)
      · rcases ih false x h' with h'' | h''
        · exact Or.inl (List.mem_cons_of_mem _ h'')
        · exact Or.inr h''

theorem mem_r4go : ∀ (st : R4S) (l : List Char) (x : Char),
    x ∈ r4go st l → x ∈ l := by
  intro st l
  induction l generalizing st with
  | nil => intro x h; cases st <;> simp [r4go] at h
  | cons c rest ih =>
    intro x h
    cases st <;> simp only [r4go] at h
    · by_cases hc : c = '('
      · rw [if_pos hc] at h
        rcases List.mem_cons.mp h with h' | h'
        · exact List.mem_cons.mpr (Or.inl (h'.trans hc.symm))
        · exact List.mem_cons_of_mem _ (ih R4S.sawP x h')
      · rw [if_neg hc] at h
        rcases List.mem_cons.mp h with h' | h'
        · exact List.mem_cons.mpr (Or.inl h')
        · exact List.mem_cons_of_mem _ (ih R4S.norm x h')
    · by_cases hw : isWs c = true
      · rw [if_pos hw] at h
        exact List.mem_cons_of_mem _ (ih R4S.skip x h)
      · rw [if_neg hw] at h
        by_cases hc : c = '('
        · rw [if_pos hc] at h
          rcases List.mem_cons.mp h with h' | h'
          · exact List.mem_cons.mpr (Or.inl (h'.trans hc.symm))
          · exact List.mem_cons_of_mem _ (ih R4S.sawP x h')
        · rw [if_neg hc] at h
          rcases List.mem_cons.mp h with h' | h'
          · exact List.mem_cons.mpr (Or.inl h')
          · exact List.mem_cons_of_mem _ (ih R4S.norm x h')
    · by_cases hw : isWs c = true
      · rw [if_pos hw] at h
        exact List.mem_cons_of_mem _ (ih R4S.skip x h)
      · rw [if_neg hw] at h
        by_cases hc : c = '('
        · rw [if_pos hc] at h
          rcases List.mem_cons.mp h with h' | h'
          · exact List.mem_cons.mpr (Or.inl (h'.trans hc.symm))
          · exact List.mem_cons_of_mem _ (ih R4S.sawP x h')
        · rw [if_neg hc] at h
          rcases List.mem_cons.mp h with h' | h'
          · exact List.mem_cons.mpr (Or.inl h')
          · exact List.mem_cons_of_mem _ (ih R4S.norm x h')

theorem mem_r5go : ∀ (pend l : List Char) (x : Char),
    x ∈ r5go pend l → x ∈ pend ∨ x ∈ l := by
  intro pend l
  induction l generalizing pend with
  | nil => intro x h; exact Or.inl (by simpa [r5go] using h)
  | cons c rest ih =>
    intro x h
    simp only [r5go] at h
    by_cases hw : isWs c = true
    · rw [if_pos hw] at h
      rcases ih (pend ++ [c]) x h with h' | h'
      · rcases List.mem_append.mp h' with h'' | h''
        · exact Or.inl h''
        · exact Or.inr (List.mem_cons.mpr (Or.inl (List.mem_singleton.mp h'')))
      · exact Or.inr (List.mem_cons_of_mem _ h')
    · rw [if_neg hw] at h
      by_cases hc : c = ')' ∧ ¬ pend.isEmpty = true
      · rw [if_pos hc] at h
        rcases List.mem_cons.mp h with h' | h'
        · exact Or.inr (List.mem_cons.mpr (Or.inl (h'.trans hc.1.symm)))
        · rcases ih [] x h' with h'' | h''
          · exact absurd h'' (List.not_mem_nil x)
          · exact Or.inr (List.mem_cons_of_mem _ h'')
      · rw [if_neg hc] at h
        rcases List.mem_append.mp h with h' | h'
        · exact Or.inl h'
        · rcases List.mem_cons.mp h' with h'' | h''
          · exact Or.inr (List.mem_cons.mpr (Or.inl h''))
          · rcases ih [] x h'' with h3 | h3
            · exact absurd h3 (List.not_mem_nil x)
            · exact Or.inr (List.mem_cons_of_mem _ h3)

theorem mem_r6go : ∀ (st : R6S) (pend l : List Char) (x : Char),
    x ∈ r6go st pend l → x ∈ pend ∨ x ∈ l ∨ x = ' ' := by
  intro st pend l
  induction l generalizing st pend with
  | nil =>
    intro x h
    cases st <;> simp only [r6go] at h
    · exact Or.inl h
    · exact absurd h (List.not_mem_nil x)
  | cons c rest ih =>
    intro x h
    have step : x ∈ r6go R6S.skipT [] rest ∨ x = c ∨ x = ' ' →
        x ∈ pend ∨ x ∈ c :: rest ∨ x = ' ' := by
      intro hx
      rcases hx with hx | hx | hx
      · rcases ih R6S.skipT [] x hx with h3 | h3 | h3
        · exact absurd h3 (List.not_mem_nil x)
        · exact Or.inr (Or.inl (List.mem_cons_of_mem _ h3))
        · exact Or.inr (Or.inr h3)
      · exact Or.inr (Or.inl (List.mem_cons.mpr (Or.inl hx)))
      · exact Or.inr (Or.inr hx)
    cases st <;> simp only [r6go] at h
    · by_cases hp : isPunctCl c = true
      · rw [if_pos hp] at h
        rcases List.mem_cons.mp h with h' | h'
        · exact step (Or.inr (Or.inl h'))
        · rcases List.mem_cons.mp h' with h'' | h''
          · exact step (Or.inr (Or.inr h''))
          · exact step (Or.inl h'')
      · rw [if_neg hp] at h
        by_cases hw : isWs c = true
        · rw [if_pos hw] at h
          rcases ih R6S.norm (pend ++ [c]) x h with h3 | h3 | h3
          · rcases List.mem_append.mp h3 with h4 | h4
            · exact Or.inl h4
            · exact Or.inr (Or.inl (List.mem_cons.mpr (Or.inl (List.mem_singleton.mp h4))))
          · exact Or.inr (Or.inl (List.mem_cons_of_mem _ h3))
          · exact Or.inr (Or.inr h3)
        · rw [if_neg hw] at h
          rcases List.mem_append.mp h with h3 | h3
          · exact Or.inl h3
          · rcases List.mem_cons.mp h3 with h4 | h4
            · exact Or.inr (Or.inl (List.mem_cons.mpr (Or.inl h4)))
            · rcases ih R6S.norm [] x h4 with h5 | h5 | h5
              · exact absurd h5 (List.not_mem_nil x)
              · exact Or.inr (Or.inl (List.mem_cons_of_mem _ h5))
              · exact Or.inr (Or.inr h5)
    · by_cases hw : isWs c = true
      · rw [if_pos hw] at h
        rcases ih R6S.skipT [] x h with h3 | h3 | h3
        · exact absurd h3 (List.not_mem_nil x)
        · exact Or.inr (Or.inl (List.mem_cons_of_mem _ h3))
        · exact Or.inr (Or.inr h3)
      · rw [if_neg hw] at h
        by_cases hp : isPunctCl c = true
        · rw [if_pos hp] at h
          rcases List.mem_cons.mp h with h' | h'
          · exact step (Or.inr (Or.inl h'))
          · rcases List.mem_cons.mp h' with h'' | h''
            · exact step (Or.inr (Or.inr h''))
            · exact step (Or.inl h'')
        · rw [if_neg hp] at h
          rcases List.mem_cons.mp h with h' | h'
          · exact Or.inr (Or.inl (List.mem_cons.mpr (Or.inl h')))
          · rcases ih R6S.norm [] x h' with h5 | h5 | h5
            · exact absurd h5 (List.not_mem_nil x)
            · exact Or.inr (Or.inl (List.mem_cons_of_mem _ h5))
            · exact Or.inr (Or.inr h5)

theorem mem_pstrip {x : Char} {l : List Char} (h : x ∈ pstrip l) : x ∈ l := by
  unfold pstrip at h
  rw [List.mem_reverse] at h
  have h1 := (List.dropWhile_suffix isWs).sublist.subset h
  rw [List.mem_reverse] at h1
  exact (List.dropWhile_suffix isWs).sublist.subset h1

theorem dropWhile_idem (p : Char → Bool) (l : List Char) :
    (l.dropWhile p).dropWhile p = l.dropWhile p := by
  induction l with
  | nil => rfl
  | cons c rest ih =>
    rw [List.dropWhile_cons]
    split
    · exact ih
    · rename_i hx
      rw [List.dropWhile_cons, if_neg hx]

theorem pstrip_dropWhile (m : List Char) :
    (pstrip m).dropWhile isWs = pstrip m := by
  unfold pstrip
  set A := m.dropWhile isWs with hA
  set B := A.reverse.dropWhile isWs with hB
  cases hBr : B.reverse with
  | nil => simp
  | cons c t =>
    have hhead : B.reverse.head? = some c := by rw [hBr]; rfl
    have hlast : B.getLast? = some c := by rw [← List.head?_reverse, hhead]
    obtain ⟨t', ht'⟩ : B <:+ A.reverse := List.dropWhile_suffix isWs
    have hlastA : A.reverse.getLast? = some c := by
      rw [← ht', List.getLast?_append, hlast]
      rfl
    have hheadA : A.head? = some c := by
      rw [← List.getLast?_reverse, hlastA]
    have hc : isWs c = false := by
      have h0 := List.head?_dropWhile_not isWs m
      rw [← hA, hheadA] at h0
      exact h0
    rw [List.dropWhile_cons, hc]
    simp

theorem pstrip_idem (l : List Char) : pstrip (pstrip l) = pstrip l := by
  show (((pstrip l).dropWhile isWs).reverse.dropWhile isWs).reverse = pstrip l
  rw [pstrip_dropWhile]
  have h2 : (pstrip l).reverse = (l.dropWhile isWs).reverse.dropWhile isWs := by
    unfold pstrip
    rw [List.reverse_reverse]
  rw [h2, dropWhile_idem]
  rfl

end CerebrasRag

namespace CerebrasRag

theorem underscore_not_mem_cleanL (l : List Char) : '_' ∉ cleanL l := by
  intro h
  unfold cleanL rule7 at h
  have h1 := List.mem_of_mem_filter (mem_pstrip h)
  unfold rule6 at h1
  rcases mem_r6go _ _ _ _ h1 with h2 | h2 | h2
  · exact List.not_mem_nil _ h2
  · unfold rule5 at h2
    rcases mem_r5go _ _ _ h2 with h3 | h3
    · exact List.not_mem_nil _ h3
    · unfold rule4 at h3
      have h4 := mem_r4go _ _ _ h3
      unfold rule3 at h4
      rcases mem_r3go _ _ _ h4 with h5 | h5
      · unfold rule2 at h5
        exact r2go_no_underscore R2S.norm [] _ (List.not_mem_nil _) h5
      · exact absurd h5 (by decide)
  · exact absurd h2 (by decide)

theorem backslash_not_mem_cleanL (l : List Char) : '\\' ∉ cleanL l := by
  intro h
  unfold cleanL at h
  exact not_backslash_mem_rule7 _ (mem_pstrip h)

/-- C2 (refuted as stated): the normalizer is not idempotent.  On
`"a _ b c"` the first pass removes the underscore (the letter-joining rule
sees no match because the underscore interrupts the letter-space run), and
only the second pass joins the now-exposed spaced letters: one application
gives `"a b c"`, two applications give `"abc"`. -/
theorem C2_counterexample :
    clean "a _ b c" = "a b c"
  ∧ clean (clean "a _ b c") = "abc"
  ∧ clean (clean "a _ b c") ≠ clean "a _ b c" := by
  refine ⟨by decide, by decide, by decide⟩

/-- C2 (amended): the normalizer is not idempotent in general (see
`C2_counterexample`); it is idempotent on every input whose cleaned form is
individually left unchanged by the letter-joining rule (1), the
whitespace-collapse rule (3), the parenthesis rules (4, 5) and the
punctuation-spacing rule (6) — and the underscore rule (2), the
backslash-removal rule (7) and the final strip never change a cleaned text
(proved unconditionally via `underscore_not_mem_cleanL`,
`backslash_not_mem_cleanL` and `pstrip_idem`).  The condition is
sufficient, not necessary: see `rule6_fixed_point_not_necessary` below. -/
theorem C2_clean_idempotent_of_rules_fixed (x : String)
    (h1 : rule1 (cleanL x.data) = cleanL x.data)
    (h3 : rule3 (cleanL x.data) = cleanL x.data)
    (h4 : rule4 (cleanL x.data) = cleanL x.data)
    (h5 : rule5 (cleanL x.data) = cleanL x.data)
    (h6 : rule6 (cleanL x.data) = cleanL x.data) :
    clean (clean x) = clean x := by
  suffices h : cleanL (cleanL x.data) = cleanL x.data by
    exact congrArg String.mk h
  have hu : '_' ∉ cleanL x.data := underscore_not_mem_cleanL x.data
  have hb : '\\' ∉ cleanL x.data := backslash_not_mem_cleanL x.data
  show pstrip (rule7 (rule6 (rule5 (rule4 (rule3 (rule2 (rule1 (cleanL x.data))))))))
      = cleanL x.data
  rw [h1, rule2_id _ hu, h3, h4, h5, h6, rule7_id _ hb]
  show pstrip (cleanL x.data) = cleanL x.data
  unfold cleanL
  exact pstrip_idem _

theorem C2_clean_idempotent_of_rules_fixed_witness :
    (rule1 (cleanL "hello world".data) = cleanL "hello world".data
      ∧ rule3 (cleanL "hello world".data) = cleanL "hello world".data
      ∧ rule4 (cleanL "hello world".data) = cleanL "hello world".data
      ∧ rule5 (cleanL "hello world".data) = cleanL "hello world".data
      ∧ rule6 (cleanL "hello world".data) = cleanL "hello world".data)
  ∧ clean (clean "hello world") = clean "hello world" :=
  ⟨⟨by decide, by decide, by decide, by decide, by decide⟩,
   C2_clean_idempotent_of_rules_fixed "hello world"
     (by decide) (by decide) (by decide) (by decide) (by decide)⟩

/-- The fixed-point hypotheses of `C2_clean_idempotent_of_rules_fixed` are
sufficient but not necessary for idempotence: at `"a."` the normalizer is
idempotent even though the punctuation rule (6) rewrites the cleaned form
`"a."` to `"a. "` — the final strip removes the trailing space again. -/
theorem rule6_fixed_point_not_necessary :
    clean (clean "a.") = clean "a."
  ∧ rule6 (cleanL "a.".data) ≠ cleanL "a.".data := by
  refine ⟨by decide, by decide⟩

end CerebrasRag
